import Mathlib

/-!
Verification development for the BBR rosbag2 storage plugin
(`bbr_rosbag2_storage_plugin/bbr/bbr_storage.cpp`).

The plugin keeps a per-topic hash chain: `create_topic` consumes the
process-wide nonce `nonce_`, derives the topic's initial digest, advances the
nonce, persists a row in the `topics` table and publishes a record; `write`
folds each message into the topic's running digest, persists a row in the
`messages` table and publishes a checkpoint.  The embedding below mirrors the
source statement by statement; each operation returns the post state, the
outcome, and the trace of persistence/publication events in program order.
-/

set_option linter.unusedVariables false

namespace Bbr

/-- Digests and nonces are opaque byte sequences; modelled as lists of bytes. -/
abbrev Digest := List Nat

/-- `rosbag2_storage::TopicMetadata`: the fields bound by `create_topic`. -/
structure TopicMetadata where
  name : String
  type : String
  serialization_format : String
deriving DecidableEq

/-- `rosbag2_storage::SerializedBagMessage`: the fields read by `write`. -/
structure Message where
  topic_name : String
  time_stamp : Int
  serialized_data : List Nat
deriving DecidableEq

/-- Interface of `BbrHelper` as invoked from `bbr_storage.cpp` (the bodies live
in `bbr_helper.cpp`, which is not part of the given source tree). -/
structure BbrHelper where
  computeTopicDigest : Digest → TopicMetadata → Digest
  computeMessageDigest : Digest → Message → Digest
  computeTopicNonce : Digest → TopicMetadata → Digest

/-- `BbrStorage::TopicInfo`: the in-memory chain state kept per topic in the
`topics_` map. -/
structure TopicInfo where
  id : Nat
  digest : Digest
  nonce : Digest
deriving DecidableEq

/-- A row of the sqlite `topics` table
(`id, name, type, serialization_format, bbr_nonce, bbr_digest`); `id` is the
1-based position of the row in the append-only table, so it is kept implicit. -/
structure TopicRow where
  name : String
  type : String
  serialization_format : String
  bbr_nonce : Digest
  bbr_digest : Digest
deriving DecidableEq

/-- A row of the sqlite `messages` table
(`id, topic_id, timestamp, data, bbr_digest`); `id` is the 1-based position. -/
structure MessageRow where
  topic_id : Nat
  timestamp : Int
  data : List Nat
  bbr_digest : Digest
deriving DecidableEq

/-- The sqlite database owned by the storage: both tables, rows in insertion
order.  `get_last_insert_id()` after an insert into `topics` is the length of
the table. -/
structure Database where
  topics : List TopicRow
  messages : List MessageRow
deriving DecidableEq

/-- In-memory state of `BbrStorage`: the process-wide nonce `nonce_`, the
`topics_` map (an association list keyed by topic name; `std::map` with
emplace-if-absent keeps keys unique), and the database. -/
structure BbrStorage where
  nonce_ : Digest
  topics_ : List (String × TopicInfo)
  database_ : Database
deriving DecidableEq

/-- Failures surfaced by the two write paths: the `SqliteException` thrown at
`bbr_storage.cpp:102` for an unknown topic, and a `SqliteException` escaping
an `execute_and_reset()` persistence call. -/
inductive BbrError where
  | UnknownTopic : BbrError
  | PersistenceFailure : BbrError
deriving DecidableEq

/-- Externally visible / state-mutating events of one operation, in program
order: in-memory updates, sqlite inserts, and the publications done through
`node_` (`create_record`, `publish_checkpoint`). -/
inductive Event where
  | advanceNonce (n : Digest)
  | updateTopicDigest (name : String) (d : Digest)
  | persistTopicRow (r : TopicRow)
  | persistMessageRow (r : MessageRow)
  | emitTopicCheckpoint (digest : Digest) (topic : TopicMetadata)
  | emitMessageCheckpoint (digest : Digest) (nonce : Digest) (m : Message)
  | storeTopicEntry (name : String) (info : TopicInfo)
deriving DecidableEq

/-- Result of one operation: post state, outcome, and the event trace. -/
structure OpResult where
  state : BbrStorage
  result : Except BbrError Unit
  trace : List Event

/-- Lookup in the `topics_` map (`topics_.find(name)`). -/
def lookupTopic : List (String × TopicInfo) → String → Option TopicInfo
  | [], _ => none
  | (k, v) :: rest, n => if k = n then some v else lookupTopic rest n

/-- In-place update of one entry of the `topics_` map
(`topic_entry->second.digest = ...`). -/
def updateTopic : List (String × TopicInfo) → String → TopicInfo → List (String × TopicInfo)
  | [], _, _ => []
  | (k, v) :: rest, n, v' =>
    if k = n then (k, v') :: rest else (k, v) :: updateTopic rest n v'

/-- `BbrStorage::create_topic` (bbr_storage.cpp:164-183).  `persistOk` models
the outcome of `insert_topic->execute_and_reset()` at line 175: when it is
`false` the statement throws and the function aborts there, keeping every
mutation made before it (the nonce advance at line 172).  Note line 179 of the
source: `topic_info.nonce = bbr_digest;` — the in-memory nonce field receives
the digest, while the persisted row receives `bbr_nonce`. -/
def create_topic (h : BbrHelper) (persistOk : Bool) (s : BbrStorage)
    (topic : TopicMetadata) : OpResult :=
  if (lookupTopic s.topics_ topic.name).isSome then
    { state := s, result := .ok (), trace := [] }
  else
    let bbr_nonce := s.nonce_
    let bbr_digest := h.computeTopicDigest bbr_nonce topic
    let nonce' := h.computeTopicNonce bbr_digest topic
    let s1 := { s with nonce_ := nonce' }
    let row : TopicRow :=
      ⟨topic.name, topic.type, topic.serialization_format, bbr_nonce, bbr_digest⟩
    if persistOk then
      let db' : Database := { s1.database_ with topics := s1.database_.topics ++ [row] }
      let info : TopicInfo := ⟨db'.topics.length, bbr_digest, bbr_digest⟩
      { state := { s1 with database_ := db', topics_ := s1.topics_ ++ [(topic.name, info)] }
        result := .ok ()
        trace := [.advanceNonce nonce', .persistTopicRow row,
                  .emitTopicCheckpoint bbr_digest topic, .storeTopicEntry topic.name info] }
    else
      { state := s1, result := .error .PersistenceFailure, trace := [.advanceNonce nonce'] }

/-- `BbrStorage::write` (bbr_storage.cpp:95-110).  `persistOk` models the
outcome of `write_statement_->execute_and_reset()` at line 108: when it is
`false` the statement throws there, after the in-memory digest assignment at
line 106. -/
def write (h : BbrHelper) (persistOk : Bool) (s : BbrStorage) (message : Message) : OpResult :=
  match lookupTopic s.topics_ message.topic_name with
  | none => { state := s, result := .error .UnknownTopic, trace := [] }
  | some info =>
    let newDigest := h.computeMessageDigest info.digest message
    let s1 := { s with
      topics_ := updateTopic s.topics_ message.topic_name { info with digest := newDigest } }
    let row : MessageRow := ⟨info.id, message.time_stamp, message.serialized_data, newDigest⟩
    if persistOk then
      let s2 := { s1 with
        database_ := { s1.database_ with messages := s1.database_.messages ++ [row] } }
      { state := s2
        result := .ok ()
        trace := [.updateTopicDigest message.topic_name newDigest, .persistMessageRow row,
                  .emitMessageCheckpoint newDigest info.nonce message] }
    else
      { state := s1, result := .error .PersistenceFailure
        trace := [.updateTopicDigest message.topic_name newDigest] }

/-- `BbrStorage::remove_topic` (bbr_storage.cpp:185-196): the whole body is
commented out in the source, so the call mutates nothing, persists nothing and
publishes nothing. -/
def remove_topic (s : BbrStorage) (topic : TopicMetadata) : OpResult :=
  { state := s, result := .ok (), trace := [] }

/-- One call of the write-side interface. -/
inductive BbrOp where
  | declare (t : TopicMetadata)
  | append (m : Message)

/-- Dispatch one call with persistence succeeding. -/
def step (h : BbrHelper) (s : BbrStorage) : BbrOp → OpResult
  | .declare t => create_topic h true s t
  | .append m => write h true s m

/-- Run a sequence of calls, collecting outcomes and the concatenated event
trace in application order (a caller that catches exceptions and goes on). -/
def runAll (h : BbrHelper) (s : BbrStorage) :
    List BbrOp → BbrStorage × List (Except BbrError Unit) × List Event
  | [] => (s, [], [])
  | op :: ops =>
    let r := step h s op
    let rest := runAll h r.state ops
    (rest.1, r.result :: rest.2.1, r.trace ++ rest.2.2)

/-- A row produced by the read query of `prepare_for_reading`
(`SELECT data, timestamp, topics.name`). -/
structure ReadRow where
  data : List Nat
  timestamp : Int
  topic_name : String
deriving DecidableEq

/-- Resolve a topic id against the `topics` table: ids are 1-based row
positions (`INTEGER PRIMARY KEY` of an append-only table). -/
def rowOfId : List TopicRow → Nat → Option TopicRow
  | [], _ => none
  | t :: ts, i => if i = 1 then some t else rowOfId ts (i - 1)

/-- The `JOIN` of `prepare_for_reading`:
`messages JOIN topics ON messages.topic_id = topics.id`, pre-sort rows in
`messages` insertion order. -/
def joinRows (db : Database) : List ReadRow :=
  db.messages.filterMap fun m =>
    (rowOfId db.topics m.topic_id).map fun t => ⟨m.data, m.timestamp, t.name⟩

/-- Comparison used by `ORDER BY messages.timestamp`. -/
def tsLe (a b : ReadRow) : Prop := a.timestamp ≤ b.timestamp

/-- Strict timestamp order on read rows. -/
def tsLt (a b : ReadRow) : Prop := a.timestamp < b.timestamp

instance : DecidableRel tsLe := fun a b => inferInstanceAs (Decidable (a.timestamp ≤ b.timestamp))

instance : DecidableRel tsLt := fun a b => inferInstanceAs (Decidable (a.timestamp < b.timestamp))

instance : IsTotal ReadRow tsLe := ⟨fun a b => Int.le_total a.timestamp b.timestamp⟩

instance : IsTrans ReadRow tsLe := ⟨fun _ _ _ h h' => Int.le_trans h h'⟩

instance : IsAntisymm ReadRow tsLt :=
  ⟨fun a b h h' => absurd (Int.lt_trans h h') (Int.lt_irrefl _)⟩

/-- The ordered result set of `prepare_for_reading`
(`ORDER BY messages.timestamp`): the join, sorted by timestamp.  SQL leaves
the relative order of equal timestamps unspecified; it is modelled as stable
(insertion order preserved among ties). -/
def readAll (db : Database) : List ReadRow :=
  List.insertionSort tsLe (joinRows db)

/-- `BbrStorage::has_next`: the cursor (modelled as the remaining suffix of
`readAll`) has not reached `end()`. -/
def has_next (cursor : List ReadRow) : Bool :=
  ! cursor.isEmpty

/-- `BbrStorage::read_next`: yield the row under the cursor and advance it
(`none` models the undefined dereference past `end()`). -/
def read_next : List ReadRow → Option (ReadRow × List ReadRow)
  | [] => none
  | r :: rest => some (r, rest)

/-- `INT64_MAX`, the sentinel used by `get_metadata` for the running minimum. -/
def int64Max : Int := 2 ^ 63 - 1

/-- The fields of `rosbag2_storage::BagMetadata` that `get_metadata` fills
from the database (`bag_size` is a filesystem query, out of scope; times are
nanosecond counts). -/
structure BagMetadata where
  storage_identifier : String
  relative_file_paths : List String
  message_count : Nat
  topics_with_message_count : List (TopicMetadata × Nat)
  starting_time : Int
  duration : Int
deriving DecidableEq

/-- The inner join underlying the grouped query of `get_metadata`
(`FROM messages JOIN topics on topics.id = messages.topic_id`). -/
def joinTM (db : Database) : List (TopicRow × MessageRow) :=
  db.messages.filterMap fun m => (rowOfId db.topics m.topic_id).map fun t => (t, m)

/-- First-occurrence deduplication, the set of group keys of `GROUP BY`. -/
def firstOcc : List String → List String
  | [] => []
  | n :: rest => n :: (firstOcc rest).filter (fun m => m ≠ n)

/-- One group of the `GROUP BY topics.name` query:
`(metadata, COUNT(messages.id), MIN(timestamp), MAX(timestamp))`; `none` when
the name has no joined rows (inner join produces no group). -/
def groupFor (db : Database) (n : String) : Option (TopicMetadata × Nat × Int × Int) :=
  match (joinTM db).filter (fun p => p.1.name = n) with
  | [] => none
  | p :: rest =>
    some (⟨p.1.name, p.1.type, p.1.serialization_format⟩,
          rest.length + 1,
          rest.foldl (fun acc q => min acc q.2.timestamp) p.2.timestamp,
          rest.foldl (fun acc q => max acc q.2.timestamp) p.2.timestamp)

/-- The result set of the grouped query of `get_metadata`; group output order
modelled as first occurrence of each name in the join. -/
def metaGroups (db : Database) : List (TopicMetadata × Nat × Int × Int) :=
  (firstOcc ((joinTM db).map fun p => p.1.name)).filterMap (groupFor db)

/-- `BbrStorage::get_metadata` (bbr_storage.cpp:249-292): fold the grouped
query results, tracking the min/max timestamp with the `INT64_MAX`/`0`
sentinels, reset both to `0` when no message was counted, and expose
`starting_time = min` and `duration = max - min`. -/
def get_metadata (db : Database) (database_name : String) : BagMetadata :=
  let groups := metaGroups db
  let message_count : Nat := groups.foldl (fun acc g => acc + g.2.1) 0
  let min_time : Int := groups.foldl
    (fun acc g => if g.2.2.1 < acc then g.2.2.1 else acc) int64Max
  let max_time : Int := groups.foldl
    (fun acc g => if g.2.2.2 > acc then g.2.2.2 else acc) 0
  let min_time' : Int := if message_count = 0 then 0 else min_time
  let max_time' : Int := if message_count = 0 then 0 else max_time
  { storage_identifier := "bbr"
    relative_file_paths := [database_name]
    message_count := message_count
    topics_with_message_count := groups.map fun g => (g.1, g.2.1)
    starting_time := min_time'
    duration := max_time' - min_time' }

/-- Modelled from the spec: canonical length-prefixed byte encoding of a
string (the body of `BbrHelper` lives in `bbr_helper.cpp`, which is not part
of the given source; spec §4.2 `canonicalEncode`). -/
def encodeString (s : String) : List Nat :=
  s.length :: (s.toList.map Char.toNat)

/-- Modelled from the spec: canonical encoding of topic metadata — name, type
and serialization-format strings, length-prefixed (spec §4.2). -/
def encodeMeta (t : TopicMetadata) : List Nat :=
  encodeString t.name ++ encodeString t.type ++ encodeString t.serialization_format

/-- Modelled from the spec: canonical encoding of a message — every byte of
the persisted payload (spec §4.2; whether the timestamp is folded in is an
open question of §9, payload bytes are modelled). -/
def encodeMessage (m : Message) : List Nat :=
  m.serialized_data.length :: m.serialized_data

/-- Modelled from the spec: the hash `H` of §4.2 — a collision-resistant hash
whose concrete choice the spec leaves open (§9); modelled as an injective
executable tagging function so that concrete chain computations evaluate. -/
def specHash (xs : List Nat) : List Nat :=
  xs.length :: xs

/-- Modelled from the spec: the three `BbrHelper` digest functions of §4.2:
`computeTopicDigest = H(nonce ‖ enc(meta))`,
`computeMessageDigest = H(prev ‖ enc(msg))`,
`computeTopicNonce = H(digest ‖ enc(meta))`. -/
def specHelper : BbrHelper where
  computeTopicDigest := fun n t => specHash (n ++ encodeMeta t)
  computeMessageDigest := fun d m => specHash (d ++ encodeMessage m)
  computeTopicNonce := fun d t => specHash (d ++ encodeMeta t)

/-- The global topic-declaration chain: the `topics` rows produced by a run of
fresh declarations starting from nonce `n0`, unfolding the per-call
computation of `create_topic`. -/
def chainRows (h : BbrHelper) (n0 : Digest) : List TopicMetadata → List TopicRow
  | [] => []
  | t :: ts =>
    let d := h.computeTopicDigest n0 t
    ⟨t.name, t.type, t.serialization_format, n0, d⟩ ::
      chainRows h (h.computeTopicNonce d t) ts

/-- The successive running digests of messages folded from `d`: element `i` is
the digest after the `(i+1)`-th append. -/
def foldDigests (h : BbrHelper) (d : Digest) : List Message → List Digest
  | [] => []
  | m :: ms =>
    let d' := h.computeMessageDigest d m
    d' :: foldDigests h d' ms

/-- Keep only the publication events of a trace. -/
def isEmit : Event → Bool
  | .emitTopicCheckpoint _ _ => true
  | .emitMessageCheckpoint _ _ _ => true
  | _ => false

/-- The checkpoints published during a trace, in order. -/
def emits (tr : List Event) : List Event :=
  tr.filter isEmit

/-- Digests carried by the message checkpoints of a trace, in order. -/
def emittedMsgDigests : List Event → List Digest
  | [] => []
  | .emitMessageCheckpoint d _ _ :: rest => d :: emittedMsgDigests rest
  | _ :: rest => emittedMsgDigests rest

/-- Digests carried by the persisted message rows of a trace, in order. -/
def persistedMsgDigests : List Event → List Digest
  | [] => []
  | .persistMessageRow r :: rest => r.bbr_digest :: persistedMsgDigests rest
  | _ :: rest => persistedMsgDigests rest

/-- Events that mutate the in-memory digest/nonce chain state. -/
def isDigestNonceUpdate : Event → Bool
  | .advanceNonce _ => true
  | .updateTopicDigest _ _ => true
  | _ => false

/-- Events that request persistence from the record store. -/
def isPersist : Event → Bool
  | .persistTopicRow _ => true
  | .persistMessageRow _ => true
  | _ => false

/-! ### Concrete inputs used by witnesses and counterexamples -/

/-- A concrete topic. -/
def tA : TopicMetadata := ⟨"A", "T", "F"⟩

/-- A second concrete topic. -/
def tB : TopicMetadata := ⟨"B", "T2", "F2"⟩

/-- A concrete message on topic `A`. -/
def mA1 : Message := ⟨"A", 1, [5]⟩

/-- A fresh storage whose session nonce is the byte `[0]`. -/
def s0 : BbrStorage := ⟨[0], [], ⟨[], []⟩⟩

/-- The storage after declaring `tA` in `s0`. -/
def s1 : BbrStorage := (create_topic specHelper true s0 tA).state

/-- The initial digest of `tA` under the spec-modelled helper. -/
def dA0 : Digest := specHelper.computeTopicDigest [0] tA

/-- The digest of `tA` after folding in `mA1`. -/
def dA1 : Digest := specHelper.computeMessageDigest dA0 mA1

/-- A second concrete message on topic `A`. -/
def mA2 : Message := ⟨"A", 2, [6]⟩

/-- The in-memory chain state of `tA` right after its declaration. -/
def infoA : TopicInfo := ⟨1, dA0, dA0⟩

/-- Database produced by declaring `A` and appending two messages whose
timestamps decrease (ts 2, then ts 1). -/
def dbC : Database :=
  (runAll specHelper s0 [.declare tA, .append ⟨"A", 2, [10]⟩, .append ⟨"A", 1, [11]⟩]).1.database_

/-- A database whose per-topic timestamps increase in insertion order. -/
def dbW : Database :=
  ⟨[⟨"A", "T", "F", [0], [0]⟩], [⟨1, 1, [10], [0]⟩, ⟨1, 2, [11], [0]⟩]⟩

/-! ### Map lemmas -/

/-- Looking up in a map extended on the right: the old binding wins, the new
binding is only found for its own fresh key. -/
theorem lookupTopic_append (l : List (String × TopicInfo)) (k n : String) (v : TopicInfo) :
    lookupTopic (l ++ [(k, v)]) n
      = match lookupTopic l n with
        | some v' => some v'
        | none => if k = n then some v else none := by
  induction l with
  | nil => rfl
  | cons hd tl ih =>
    obtain ⟨k', v'⟩ := hd
    by_cases hk : k' = n <;> simp [lookupTopic, hk, ih]

/-- Updating a bound key and looking it up yields the new value. -/
theorem lookupTopic_update_self (l : List (String × TopicInfo)) (n : String)
    (v' v0 : TopicInfo) (hl : lookupTopic l n = some v0) :
    lookupTopic (updateTopic l n v') n = some v' := by
  induction l with
  | nil => simp [lookupTopic] at hl
  | cons hd tl ih =>
    obtain ⟨k, v⟩ := hd
    by_cases hk : k = n
    · simp [lookupTopic, updateTopic, hk]
    · simp only [lookupTopic, updateTopic, if_neg hk] at hl ⊢
      exact ih hl

/-! ### Unfolding lemmas for the two write paths -/

/-- A successful `write` to a tracked topic, written out: the topic's digest is
folded forward, the row is appended to `messages`, and the trace is the
in-memory update, the persist, then the checkpoint publication. -/
theorem write_tracked (h : BbrHelper) (s : BbrStorage) (m : Message) (info : TopicInfo)
    (hl : lookupTopic s.topics_ m.topic_name = some info) :
    write h true s m =
      ⟨⟨s.nonce_,
        updateTopic s.topics_ m.topic_name
          { info with digest := h.computeMessageDigest info.digest m },
        ⟨s.database_.topics,
         s.database_.messages
           ++ [⟨info.id, m.time_stamp, m.serialized_data,
                h.computeMessageDigest info.digest m⟩]⟩⟩,
       .ok (),
       [.updateTopicDigest m.topic_name (h.computeMessageDigest info.digest m),
        .persistMessageRow
          ⟨info.id, m.time_stamp, m.serialized_data, h.computeMessageDigest info.digest m⟩,
        .emitMessageCheckpoint (h.computeMessageDigest info.digest m) info.nonce m]⟩ := by
  simp [write, hl]

/-- A successful declaration of a fresh topic, written out: the global nonce
advances, the row carrying the captured seed nonce is appended to `topics`,
the in-memory entry receives the digest in both its `digest` and `nonce`
fields (bbr_storage.cpp:178-179), and the trace is the nonce advance, the
persist, the record publication, then the map insertion. -/
theorem create_topic_fresh (h : BbrHelper) (s : BbrStorage) (t : TopicMetadata)
    (hl : lookupTopic s.topics_ t.name = none) :
    create_topic h true s t =
      ⟨⟨h.computeTopicNonce (h.computeTopicDigest s.nonce_ t) t,
        s.topics_ ++ [(t.name,
          ⟨s.database_.topics.length + 1,
           h.computeTopicDigest s.nonce_ t, h.computeTopicDigest s.nonce_ t⟩)],
        ⟨s.database_.topics
           ++ [⟨t.name, t.type, t.serialization_format, s.nonce_,
                h.computeTopicDigest s.nonce_ t⟩],
         s.database_.messages⟩⟩,
       .ok (),
       [.advanceNonce (h.computeTopicNonce (h.computeTopicDigest s.nonce_ t) t),
        .persistTopicRow
          ⟨t.name, t.type, t.serialization_format, s.nonce_, h.computeTopicDigest s.nonce_ t⟩,
        .emitTopicCheckpoint (h.computeTopicDigest s.nonce_ t) t,
        .storeTopicEntry t.name
          ⟨s.database_.topics.length + 1,
           h.computeTopicDigest s.nonce_ t, h.computeTopicDigest s.nonce_ t⟩]⟩ := by
  simp [create_topic, hl]

/-- `write` never touches the global nonce, on any path. -/
theorem write_preserves_nonce (h : BbrHelper) (persistOk : Bool) (s : BbrStorage)
    (m : Message) : (write h persistOk s m).state.nonce_ = s.nonce_ := by
  cases hl : lookupTopic s.topics_ m.topic_name <;> cases persistOk <;> simp [write, hl]

/-! ### Chain lemmas -/

/-- Every row of the declaration chain satisfies invariant 1:
its digest is `computeTopicDigest` of its own seed nonce and metadata. -/
theorem chainRows_digest_eq (h : BbrHelper) (ts : List TopicMetadata) :
    ∀ (n0 : Digest) (i : Nat) (r : TopicRow) (t : TopicMetadata),
      (chainRows h n0 ts)[i]? = some r → ts[i]? = some t →
      r.bbr_digest = h.computeTopicDigest r.bbr_nonce t := by
  induction ts with
  | nil => intro n0 i r t h1 _; simp [chainRows] at h1
  | cons t0 ts ih =>
    intro n0 i r t h1 h2
    cases i with
    | zero =>
      simp only [chainRows, List.getElem?_cons_zero, Option.some.injEq] at h1 h2
      rw [← h1, ← h2]
    | succ i =>
      simp only [chainRows, List.getElem?_cons_succ] at h1 h2
      exact ih _ i r t h1 h2

/-- Consecutive rows of the declaration chain satisfy invariant 3: the seed
nonce of the next topic is `computeTopicNonce` of the previous topic's digest
and metadata. -/
theorem chainRows_seed_eq (h : BbrHelper) (ts : List TopicMetadata) :
    ∀ (n0 : Digest) (i : Nat) (r r' : TopicRow) (t : TopicMetadata),
      (chainRows h n0 ts)[i]? = some r → (chainRows h n0 ts)[i + 1]? = some r' →
      ts[i]? = some t → r'.bbr_nonce = h.computeTopicNonce r.bbr_digest t := by
  induction ts with
  | nil => intro n0 i r r' t h1 _ _; simp [chainRows] at h1
  | cons t0 ts ih =>
    intro n0 i r r' t h1 h2 h3
    cases i with
    | zero =>
      simp only [chainRows, List.getElem?_cons_zero, List.getElem?_cons_succ,
        Option.some.injEq] at h1 h2 h3
      cases ts with
      | nil => simp [chainRows] at h2
      | cons t1 ts' =>
        simp only [chainRows, List.getElem?_cons_zero, Option.some.injEq] at h2
        rw [← h1, ← h2, ← h3]
    | succ i =>
      simp only [chainRows, List.getElem?_cons_succ] at h1 h2 h3
      exact ih _ i r r' t h1 h2 h3

/-- Running a sequence of fresh, distinctly named declarations appends exactly
the declaration-chain rows to the `topics` table, seeded from the current
global nonce. -/
theorem declareAll_topics_table (h : BbrHelper) (ts : List TopicMetadata) :
    ∀ (s : BbrStorage), (ts.map TopicMetadata.name).Nodup →
      (∀ t ∈ ts, lookupTopic s.topics_ t.name = none) →
      (runAll h s (ts.map BbrOp.declare)).1.database_.topics
        = s.database_.topics ++ chainRows h s.nonce_ ts := by
  induction ts with
  | nil => intro s _ _; simp [runAll, chainRows]
  | cons t0 ts ih =>
    intro s hnodup hfresh
    have h0 : lookupTopic s.topics_ t0.name = none := hfresh t0 (List.mem_cons_self _ _)
    have hnd : (∀ x ∈ ts, ¬x.name = t0.name) ∧ (ts.map TopicMetadata.name).Nodup := by
      simpa using hnodup
    rw [List.map_cons]
    simp only [runAll, step]
    rw [create_topic_fresh h s t0 h0]
    have hfresh' : ∀ t ∈ ts,
        lookupTopic (s.topics_ ++ [(t0.name,
          (⟨s.database_.topics.length + 1, h.computeTopicDigest s.nonce_ t0,
            h.computeTopicDigest s.nonce_ t0⟩ : TopicInfo))]) t.name = none := by
      intro t ht
      rw [lookupTopic_append, hfresh t (List.mem_cons_of_mem _ ht)]
      have hne : t0.name ≠ t.name := fun he => hnd.1 t ht he.symm
      simp [hne]
    have hrec := ih
      ⟨h.computeTopicNonce (h.computeTopicDigest s.nonce_ t0) t0,
       s.topics_ ++ [(t0.name,
         ⟨s.database_.topics.length + 1, h.computeTopicDigest s.nonce_ t0,
          h.computeTopicDigest s.nonce_ t0⟩)],
       ⟨s.database_.topics
          ++ [⟨t0.name, t0.type, t0.serialization_format, s.nonce_,
               h.computeTopicDigest s.nonce_ t0⟩],
        s.database_.messages⟩⟩ hnd.2 hfresh'
    simp only at hrec
    rw [hrec]
    simp [chainRows, List.append_assoc]

/-- Element `i` of the running-digest list is the left fold of the first
`i + 1` messages. -/
theorem foldDigests_getElem (h : BbrHelper) (msgs : List Message) :
    ∀ (d : Digest) (i : Nat), i < msgs.length →
      (foldDigests h d msgs)[i]?
        = some (List.foldl h.computeMessageDigest d (msgs.take (i + 1))) := by
  induction msgs with
  | nil => intro d i hi; simp at hi
  | cons m ms ih =>
    intro d i hi
    cases i with
    | zero => simp [foldDigests]
    | succ i =>
      simp only [foldDigests, List.getElem?_cons_succ, List.take_succ_cons, List.foldl_cons]
      exact ih _ i (by simpa using hi)

/-- `persistedMsgDigests` distributes over trace concatenation. -/
theorem persistedMsgDigests_append (tr tr' : List Event) :
    persistedMsgDigests (tr ++ tr') = persistedMsgDigests tr ++ persistedMsgDigests tr' := by
  induction tr with
  | nil => rfl
  | cons e tr ih => cases e <;> simp [persistedMsgDigests, ih]

/-- `emittedMsgDigests` distributes over trace concatenation. -/
theorem emittedMsgDigests_append (tr tr' : List Event) :
    emittedMsgDigests (tr ++ tr') = emittedMsgDigests tr ++ emittedMsgDigests tr' := by
  induction tr with
  | nil => rfl
  | cons e tr ih => cases e <;> simp [emittedMsgDigests, ih]

/-- Running a sequence of appends to one tracked topic folds the digest left
to right: the final in-memory digest is the left fold, every call succeeds,
and the digests persisted and published along the way are the successive
partial folds. -/
theorem appendAll_fold (h : BbrHelper) (name : String) (msgs : List Message) :
    ∀ (s : BbrStorage) (info : TopicInfo),
      lookupTopic s.topics_ name = some info →
      (∀ m ∈ msgs, m.topic_name = name) →
      lookupTopic (runAll h s (msgs.map BbrOp.append)).1.topics_ name
          = some { info with digest := msgs.foldl h.computeMessageDigest info.digest }
      ∧ persistedMsgDigests (runAll h s (msgs.map BbrOp.append)).2.2
          = foldDigests h info.digest msgs
      ∧ emittedMsgDigests (runAll h s (msgs.map BbrOp.append)).2.2
          = foldDigests h info.digest msgs
      ∧ (∀ e ∈ (runAll h s (msgs.map BbrOp.append)).2.1, e = .ok ()) := by
  induction msgs with
  | nil =>
    intro s info hl _
    refine ⟨by simpa [runAll] using hl, rfl, rfl, by simp [runAll]⟩
  | cons m ms ih =>
    intro s info hl hall
    have hm : m.topic_name = name := hall m (List.mem_cons_self _ _)
    have hlm : lookupTopic s.topics_ m.topic_name = some info := by rw [hm]; exact hl
    rw [List.map_cons]
    simp only [runAll, step]
    rw [write_tracked h s m info hlm]
    have hl2 : lookupTopic
        (updateTopic s.topics_ m.topic_name
          { info with digest := h.computeMessageDigest info.digest m }) name
        = some { info with digest := h.computeMessageDigest info.digest m } := by
      rw [hm]
      exact lookupTopic_update_self _ _ _ info hl
    have hrec := ih
      ⟨s.nonce_,
       updateTopic s.topics_ m.topic_name
         { info with digest := h.computeMessageDigest info.digest m },
       ⟨s.database_.topics,
        s.database_.messages
          ++ [⟨info.id, m.time_stamp, m.serialized_data,
               h.computeMessageDigest info.digest m⟩]⟩⟩
      { info with digest := h.computeMessageDigest info.digest m }
      hl2 (fun m' hm' => hall m' (List.mem_cons_of_mem _ hm'))
    refine ⟨?_, ?_, ?_, ?_⟩
    · simpa [List.foldl_cons] using hrec.1
    · simp only [persistedMsgDigests_append]
      rw [hrec.2.1]
      simp [persistedMsgDigests, foldDigests]
    · simp only [emittedMsgDigests_append]
      rw [hrec.2.2.1]
      simp [emittedMsgDigests, foldDigests]
    · intro e he
      simp only [List.mem_cons] at he
      rcases he with he | he
      · exact he
      · exact hrec.2.2.2 e he

/-! ### Claim theorems -/

/-- C5: declaring an already-tracked topic name a second time is an idempotent
no-op — the state (that topic's id/digest/nonce, every other topic, the global
nonce, both tables) is returned unchanged, the call succeeds, and the trace is
empty (nothing persisted, no checkpoint published). -/
theorem create_topic_idempotent (h : BbrHelper) (persistOk : Bool) (s : BbrStorage)
    (t : TopicMetadata) (info : TopicInfo)
    (hl : lookupTopic s.topics_ t.name = some info) :
    create_topic h persistOk s t = ⟨s, .ok (), []⟩ := by
  simp [create_topic, hl]

/-- Witness for C5: re-declaring topic `A` after it was declared in `s0`. -/
theorem create_topic_idempotent_witness :
    lookupTopic s1.topics_ tA.name = some ⟨1, dA0, dA0⟩
    ∧ create_topic specHelper true s1 tA = ⟨s1, .ok (), []⟩ :=
  ⟨by decide, create_topic_idempotent specHelper true s1 tA ⟨1, dA0, dA0⟩ (by decide)⟩

/-- C6: appending a message whose topic name is not tracked fails with the
unknown-topic error and does nothing — the state (all digests, the global
nonce, both tables) is returned unchanged and the trace is empty (nothing
persisted, no checkpoint published). -/
theorem write_unknown_topic (h : BbrHelper) (persistOk : Bool) (s : BbrStorage)
    (m : Message) (hl : lookupTopic s.topics_ m.topic_name = none) :
    write h persistOk s m = ⟨s, .error .UnknownTopic, []⟩ := by
  simp [write, hl]

/-- Witness for C6: appending to topic `A` before any declaration. -/
theorem write_unknown_topic_witness :
    lookupTopic s0.topics_ mA1.topic_name = none
    ∧ write specHelper true s0 mA1 = ⟨s0, .error .UnknownTopic, []⟩ :=
  ⟨by decide, write_unknown_topic specHelper true s0 mA1 (by decide)⟩

/-- C9: `remove_topic` (whose body is commented out in the source) leaves the
whole state — the topics map, every digest and nonce, the global nonce, both
persisted tables — unchanged, succeeds, and emits nothing. -/
theorem remove_topic_noop (s : BbrStorage) (t : TopicMetadata) :
    remove_topic s t = ⟨s, .ok (), []⟩ :=
  rfl

/-- C10: on a store with no persisted messages, `get_metadata` reports zero
messages, an empty per-topic count list, starting time zero and zero duration;
the `INT64_MAX`/`0` sentinels are overwritten before being exposed. -/
theorem get_metadata_empty (db : Database) (nm : String) (hempty : db.messages = []) :
    get_metadata db nm = ⟨"bbr", [nm], 0, [], 0, 0⟩ := by
  obtain ⟨tops, msgs⟩ := db
  simp only at hempty
  subst hempty
  rfl

/-- Witness for C10: a store holding one topic row and no messages. -/
theorem get_metadata_empty_witness :
    (Database.mk [⟨"A", "T", "F", [0], [1]⟩] []).messages = []
    ∧ get_metadata ⟨[⟨"A", "T", "F", [0], [1]⟩], []⟩ "b.db3" = ⟨"bbr", ["b.db3"], 0, [], 0, 0⟩ :=
  ⟨rfl, get_metadata_empty ⟨[⟨"A", "T", "F", [0], [1]⟩], []⟩ "b.db3" rfl⟩

/-- C1 (code bug, bbr_storage.cpp:179): after declaring topic `A` with global
nonce `[0]`, the persisted `topics` row carries the captured seed nonce `[0]`,
but the in-memory `TopicInfo.nonce` field holds the initial digest `dA0`
(`topic_info.nonce = bbr_digest;`), which differs from the seed; consequently
the checkpoint published by `write` carries `dA0`, not the seed nonce, in its
nonce field. -/
theorem create_topic_nonce_field_divergence :
    lookupTopic s1.topics_ "A" = some ⟨1, dA0, dA0⟩
    ∧ s1.database_.topics = [⟨"A", "T", "F", [0], dA0⟩]
    ∧ dA0 ≠ [0]
    ∧ emits (write specHelper true s1 mA1).trace = [.emitMessageCheckpoint dA1 dA0 mA1] := by
  refine ⟨by decide, by decide, by decide, by decide⟩

/-- C4 (amended): when the persistence call fails, the operation reports a
persistence failure, persists nothing and publishes nothing — but the
in-memory chain state has already been advanced and is not rolled back: a
failed `write` leaves the topic digest folded forward (line 106 precedes the
`execute_and_reset` of line 108), and a failed `create_topic` leaves the
global nonce advanced (line 172 precedes line 175). -/
theorem persist_failure_leaves_memory_advanced (h : BbrHelper) (s : BbrStorage)
    (m : Message) (t : TopicMetadata) (info : TopicInfo)
    (hm : lookupTopic s.topics_ m.topic_name = some info)
    (ht : lookupTopic s.topics_ t.name = none) :
    (write h false s m).result = .error .PersistenceFailure
    ∧ (write h false s m).state.topics_
        = updateTopic s.topics_ m.topic_name
            { info with digest := h.computeMessageDigest info.digest m }
    ∧ (write h false s m).state.database_ = s.database_
    ∧ emits (write h false s m).trace = []
    ∧ (create_topic h false s t).result = .error .PersistenceFailure
    ∧ (create_topic h false s t).state.nonce_
        = h.computeTopicNonce (h.computeTopicDigest s.nonce_ t) t
    ∧ (create_topic h false s t).state.database_ = s.database_
    ∧ (create_topic h false s t).state.topics_ = s.topics_
    ∧ emits (create_topic h false s t).trace = [] := by
  refine ⟨?_, ?_, ?_, ?_, ?_, ?_, ?_, ?_, ?_⟩ <;>
    simp [write, create_topic, emits, isEmit, hm, ht]

/-- Witness for C4's amended theorem: a failing persist during an append to
the tracked topic `A` and during a declaration of the fresh topic `B`. -/
theorem persist_failure_leaves_memory_advanced_witness :
    lookupTopic s1.topics_ mA1.topic_name = some ⟨1, dA0, dA0⟩
    ∧ lookupTopic s1.topics_ tB.name = none
    ∧ ((write specHelper false s1 mA1).result = .error .PersistenceFailure
      ∧ (write specHelper false s1 mA1).state.topics_
          = updateTopic s1.topics_ mA1.topic_name
              { (⟨1, dA0, dA0⟩ : TopicInfo) with
                  digest := specHelper.computeMessageDigest dA0 mA1 }
      ∧ (write specHelper false s1 mA1).state.database_ = s1.database_
      ∧ emits (write specHelper false s1 mA1).trace = []
      ∧ (create_topic specHelper false s1 tB).result = .error .PersistenceFailure
      ∧ (create_topic specHelper false s1 tB).state.nonce_
          = specHelper.computeTopicNonce (specHelper.computeTopicDigest s1.nonce_ tB) tB
      ∧ (create_topic specHelper false s1 tB).state.database_ = s1.database_
      ∧ (create_topic specHelper false s1 tB).state.topics_ = s1.topics_
      ∧ emits (create_topic specHelper false s1 tB).trace = []) :=
  ⟨by decide, by decide,
    persist_failure_leaves_memory_advanced specHelper s1 mA1 tB ⟨1, dA0, dA0⟩
      (by decide) (by decide)⟩

/-- Counterexample for C4 as stated: with the spec-modelled helper, a failing
persist during an append to topic `A` returns the error, yet leaves the
in-memory digest advanced to `dA1 ≠ dA0` while the `messages` table is still
empty — the in-memory chain is left advanced with the durable record of that
advance missing, so persistence is neither a commit point nor part of an
atomic failure unit. -/
theorem persist_failure_counterexample :
    (write specHelper false s1 mA1).result = .error .PersistenceFailure
    ∧ lookupTopic (write specHelper false s1 mA1).state.topics_ "A" = some ⟨1, dA1, dA0⟩
    ∧ dA1 ≠ dA0
    ∧ (write specHelper false s1 mA1).state.database_.messages = [] := by
  refine ⟨rfl, by decide, by decide, by decide⟩

/-- C2: a run of fresh, distinctly named declarations starting from the
current global nonce appends exactly the declaration-chain rows to the
`topics` table; every chain row's digest is `computeTopicDigest` of its own
captured seed nonce and metadata (invariant 1); the seed nonce of each next
topic is `computeTopicNonce` of the previous topic's digest and metadata
(invariant 3); and message appends never change the global nonce, so the
declaration events form one global chain. -/
theorem declare_chain_global (h : BbrHelper) (s : BbrStorage) (ts : List TopicMetadata)
    (hnodup : (ts.map TopicMetadata.name).Nodup)
    (hfresh : ∀ t ∈ ts, lookupTopic s.topics_ t.name = none) :
    (runAll h s (ts.map BbrOp.declare)).1.database_.topics
        = s.database_.topics ++ chainRows h s.nonce_ ts
    ∧ (∀ (i : Nat) (r : TopicRow) (t : TopicMetadata),
        (chainRows h s.nonce_ ts)[i]? = some r → ts[i]? = some t →
        r.bbr_digest = h.computeTopicDigest r.bbr_nonce t)
    ∧ (∀ (i : Nat) (r r' : TopicRow) (t : TopicMetadata),
        (chainRows h s.nonce_ ts)[i]? = some r →
        (chainRows h s.nonce_ ts)[i + 1]? = some r' → ts[i]? = some t →
        r'.bbr_nonce = h.computeTopicNonce r.bbr_digest t)
    ∧ (∀ (persistOk : Bool) (s' : BbrStorage) (m : Message),
        (write h persistOk s' m).state.nonce_ = s'.nonce_) :=
  ⟨declareAll_topics_table h ts s hnodup hfresh,
   fun i r t h1 h2 => chainRows_digest_eq h ts s.nonce_ i r t h1 h2,
   fun i r r' t h1 h2 h3 => chainRows_seed_eq h ts s.nonce_ i r r' t h1 h2 h3,
   fun persistOk s' m => write_preserves_nonce h persistOk s' m⟩

/-- Witness for C2: declaring `A` then `B` from the fresh session `s0`. -/
theorem declare_chain_global_witness :
    ([tA, tB].map TopicMetadata.name).Nodup
    ∧ (∀ t ∈ [tA, tB], lookupTopic s0.topics_ t.name = none)
    ∧ (runAll specHelper s0 ([tA, tB].map BbrOp.declare)).1.database_.topics
        = s0.database_.topics ++ chainRows specHelper s0.nonce_ [tA, tB] :=
  ⟨by decide, by decide,
   (declare_chain_global specHelper s0 [tA, tB] (by decide) (by decide)).1⟩

/-- C3: appending `m1..mn` in order to a tracked topic leaves the topic's
in-memory digest equal to the left fold of `computeMessageDigest` over its
starting digest, every append succeeds, the digests persisted with the rows
and published with the checkpoints are the successive partial folds, and the
`i`-th such digest is the fold of the first `i + 1` messages — so the digest
persisted and published for the `n`-th message is the digest after the `n`-th
append. -/
theorem append_chain_fold (h : BbrHelper) (s : BbrStorage) (name : String)
    (info : TopicInfo) (msgs : List Message)
    (hl : lookupTopic s.topics_ name = some info)
    (hall : ∀ m ∈ msgs, m.topic_name = name) :
    lookupTopic (runAll h s (msgs.map BbrOp.append)).1.topics_ name
        = some { info with digest := msgs.foldl h.computeMessageDigest info.digest }
    ∧ persistedMsgDigests (runAll h s (msgs.map BbrOp.append)).2.2
        = foldDigests h info.digest msgs
    ∧ emittedMsgDigests (runAll h s (msgs.map BbrOp.append)).2.2
        = foldDigests h info.digest msgs
    ∧ (∀ e ∈ (runAll h s (msgs.map BbrOp.append)).2.1, e = .ok ())
    ∧ (∀ i, i < msgs.length →
        (foldDigests h info.digest msgs)[i]?
          = some (List.foldl h.computeMessageDigest info.digest (msgs.take (i + 1)))) := by
  obtain ⟨h1, h2, h3, h4⟩ := appendAll_fold h name msgs s info hl hall
  exact ⟨h1, h2, h3, h4, fun i hi => foldDigests_getElem h msgs info.digest i hi⟩

/-- Witness for C3: appending `mA1` then `mA2` to topic `A` in `s1`. -/
theorem append_chain_fold_witness :
    lookupTopic s1.topics_ "A" = some infoA
    ∧ (∀ m ∈ [mA1, mA2], m.topic_name = "A")
    ∧ lookupTopic (runAll specHelper s1 ([mA1, mA2].map BbrOp.append)).1.topics_ "A"
        = some { infoA with
            digest := [mA1, mA2].foldl specHelper.computeMessageDigest infoA.digest } :=
  ⟨by decide, by decide,
   (append_chain_fold specHelper s1 "A" infoA [mA1, mA2] (by decide) (by decide)).1⟩

/-- C7: a fresh declaration and a tracked append each succeed with a trace of
the form in-memory digest/nonce update, then persistence request, then
exactly one checkpoint publication (no further publication follows), all
before the call returns; and a run concatenates per-call traces in application
order, so checkpoints are published in the order the writes are applied. -/
theorem checkpoint_emission_order (h : BbrHelper) (s : BbrStorage) (t : TopicMetadata)
    (m : Message) (info : TopicInfo)
    (ht : lookupTopic s.topics_ t.name = none)
    (hm : lookupTopic s.topics_ m.topic_name = some info) :
    ((create_topic h true s t).result = .ok ()
      ∧ (∃ e1 e2 e3 rest, (create_topic h true s t).trace = e1 :: e2 :: e3 :: rest
          ∧ isDigestNonceUpdate e1 = true ∧ isPersist e2 = true ∧ isEmit e3 = true
          ∧ emits (create_topic h true s t).trace = [e3]))
    ∧ ((write h true s m).result = .ok ()
      ∧ (∃ e1 e2 e3 rest, (write h true s m).trace = e1 :: e2 :: e3 :: rest
          ∧ isDigestNonceUpdate e1 = true ∧ isPersist e2 = true ∧ isEmit e3 = true
          ∧ emits (write h true s m).trace = [e3]))
    ∧ (∀ (s' : BbrStorage) (op : BbrOp) (ops : List BbrOp),
        (runAll h s' (op :: ops)).2.2
          = (step h s' op).trace ++ (runAll h (step h s' op).state ops).2.2) := by
  rw [create_topic_fresh h s t ht, write_tracked h s m info hm]
  exact ⟨⟨rfl, ⟨_, _, _, _, rfl, rfl, rfl, rfl, rfl⟩⟩,
         ⟨rfl, ⟨_, _, _, _, rfl, rfl, rfl, rfl, rfl⟩⟩,
         fun s' op ops => rfl⟩

/-- Witness for C7: declaring `B` and appending to `A` in `s1`. -/
theorem checkpoint_emission_order_witness :
    lookupTopic s1.topics_ tB.name = none
    ∧ lookupTopic s1.topics_ mA1.topic_name = some infoA
    ∧ (write specHelper true s1 mA1).result = .ok () :=
  ⟨by decide, by decide,
   (checkpoint_emission_order specHelper s1 tB mA1 infoA (by decide) (by decide)).2.1.1⟩

/-- C8 (amended): a successful append persists its row at the end of the
`messages` table, so persisted order is write order; the read cursor replays
the join ordered by timestamp, and for any topic whose persisted timestamps
are strictly increasing in insertion order, the read-back restricted to that
topic equals its write order.  (Without that monotonicity the read-back is
timestamp order, not write order — see the counterexample.) -/
theorem read_back_monotone_order (h : BbrHelper) (s : BbrStorage) (m : Message)
    (info : TopicInfo) (db : Database) (tn : String)
    (hm : lookupTopic s.topics_ m.topic_name = some info)
    (hmono : ((joinRows db).filter (fun r => r.topic_name == tn)).Pairwise tsLt) :
    (write h true s m).state.database_.messages
        = s.database_.messages
          ++ [⟨info.id, m.time_stamp, m.serialized_data,
               h.computeMessageDigest info.digest m⟩]
    ∧ (readAll db).filter (fun r => r.topic_name == tn)
        = (joinRows db).filter (fun r => r.topic_name == tn) := by
  constructor
  · rw [write_tracked h s m info hm]
  · have hperm : List.Perm (readAll db) (joinRows db) :=
      List.perm_insertionSort tsLe (joinRows db)
    have hfperm := hperm.filter (fun r => r.topic_name == tn)
    have hsorted : List.Sorted tsLe (readAll db) :=
      List.sorted_insertionSort tsLe (joinRows db)
    have h1 : ((readAll db).filter (fun r => r.topic_name == tn)).Pairwise tsLe :=
      hsorted.sublist (List.filter_sublist _)
    have hneq : ((joinRows db).filter (fun r => r.topic_name == tn)).Pairwise
        (fun a b => a.timestamp ≠ b.timestamp) :=
      hmono.imp (fun hab => Int.ne_of_lt hab)
    have hneq' : ((readAll db).filter (fun r => r.topic_name == tn)).Pairwise
        (fun a b => a.timestamp ≠ b.timestamp) :=
      (hfperm.pairwise_iff (fun hab => Ne.symm hab)).2 hneq
    have hlt : ((readAll db).filter (fun r => r.topic_name == tn)).Pairwise tsLt :=
      (h1.and hneq').imp (fun hab => lt_of_le_of_ne hab.1 hab.2)
    exact List.eq_of_perm_of_sorted hfperm hlt hmono

/-- Witness for C8's amended theorem: a database whose topic-`A` timestamps
increase in insertion order reads back in write order. -/
theorem read_back_monotone_order_witness :
    lookupTopic s1.topics_ mA1.topic_name = some infoA
    ∧ ((joinRows dbW).filter (fun r => r.topic_name == "A")).Pairwise tsLt
    ∧ (readAll dbW).filter (fun r => r.topic_name == "A")
        = (joinRows dbW).filter (fun r => r.topic_name == "A") :=
  ⟨by decide, by decide,
   (read_back_monotone_order specHelper s1 mA1 infoA dbW "A" (by decide) (by decide)).2⟩

/-- Counterexample for C8 as stated: after declaring `A` and appending two
messages with timestamps 2 then 1, the rows are persisted in write order
`[2, 1]`, but the read cursor yields topic `A`'s rows in timestamp order
`[1, 2]` — not the order `appendMessage` persisted them. -/
theorem read_back_counterexample :
    dbC.messages.map (fun r => r.timestamp) = [2, 1]
    ∧ ((readAll dbC).filter (fun r => r.topic_name == "A")).map (fun r => r.timestamp)
        = [1, 2]
    ∧ (readAll dbC).filter (fun r => r.topic_name == "A")
        ≠ (joinRows dbC).filter (fun r => r.topic_name == "A") := by
  refine ⟨by decide, by decide, by decide⟩

end Bbr
